import Mathlib

/-!
Shallow embedding of the in-shadow-trader backtesting core.

Sources embedded:
- src/strategy.py: find_recent_swing_high_low, check_buy_condition, check_sell_condition.
- src/backtest.py: _calculate_pnl_and_commission and the live simulation loop of
  run_backtest (lines 281-427), including entry sizing, stop-loss and signal exits,
  drawdown tracking, the end-of-run forced close and the results record.

Numbers are idealized as exact rationals; a pandas NaN (an undefined indicator value)
is modelled as Option.none.  A pandas DataFrame is a list of rows together with the
list of column names that are present (a value can only be consulted through a column
that exists, and the source checks column presence separately from per-row NaN-ness).
-/

namespace InShadowTrader

/-- Row of an enriched DataFrame: OHLC fields and the indicator columns the strategy
consults.  Every value is optional because indicators are NaN during warm-up. -/
structure Bar where
  close : Option ℚ := none
  high : Option ℚ := none
  low : Option ℚ := none
  ema_12 : Option ℚ := none
  ema_26 : Option ℚ := none
  ema_50 : Option ℚ := none
  macd : Option ℚ := none
  macd_signal : Option ℚ := none
  rsi : Option ℚ := none
  adx : Option ℚ := none
  atr : Option ℚ := none
  aroon_oscillator : Option ℚ := none
deriving DecidableEq

/-- Enriched DataFrame: the column names present plus the rows. -/
structure DataFrame where
  columns : List String
  rows : List Bar
deriving DecidableEq

/-- Check that every name in cols is a column of df (the all-columns-present guards of
check_buy_condition and check_sell_condition). -/
def hasCols (df : DataFrame) (cols : List String) : Bool :=
  cols.all (fun c => df.columns.contains c)

/-- Mean of the atr column skipping undefined entries, as pandas Series.mean does.
The strategy only compares against it after requiring the last row's atr defined,
so the column is never all-NaN at a use site. -/
def atrMean (rows : List Bar) : ℚ :=
  let l := rows.filterMap Bar.atr
  l.sum / (l.length : ℚ)

/-- Last min(n, length) rows, as DataFrame.tail(n) with n = actual_lookback. -/
def tailRows (rows : List Bar) (n : ℕ) : List Bar :=
  rows.drop (rows.length - n)

/-- Embedding of strategy.find_recent_swing_high_low: (max high, min low) over the
last min(lookback, available) rows; none when the frame is empty, the high/low
columns are absent, the extrema are undefined, or swing_high is at most swing_low. -/
def find_recent_swing_high_low (df : DataFrame) (lookback_period : ℕ) : Option (ℚ × ℚ) :=
  if df.rows.isEmpty then none
  else if hasCols df ["high", "low"] = false then none
  else
    let recent_data := tailRows df.rows lookback_period
    match (recent_data.filterMap Bar.high).max?, (recent_data.filterMap Bar.low).min? with
    | some swing_high, some swing_low =>
        if swing_high ≤ swing_low then none else some (swing_high, swing_low)
    | _, _ => none

/-- Columns required by check_buy_condition. -/
def requiredBuyIndicators : List String :=
  ["ema_12", "ema_26", "ema_50", "macd", "macd_signal", "rsi", "adx", "atr",
   "aroon_oscillator", "close"]

/-- Columns required by check_sell_condition. -/
def requiredSellIndicators : List String :=
  ["ema_12", "ema_26", "macd", "macd_signal", "atr", "aroon_oscillator", "close"]

/-- Defined values extracted from the last row for the buy check. -/
structure BuyVals where
  ema_12 : ℚ
  ema_26 : ℚ
  ema_50 : ℚ
  macd : ℚ
  macd_signal : ℚ
  rsi : ℚ
  adx : ℚ
  atr : ℚ
  aroon_oscillator : ℚ
  close : ℚ
deriving DecidableEq

/-- Extract the last row's critical buy values; none when any of them is NaN
(the any(pd.isna(value)) guard of check_buy_condition). -/
def lastBuyVals? (df : DataFrame) : Option BuyVals :=
  match df.rows.getLast? with
  | none => none
  | some b =>
    match b.ema_12, b.ema_26, b.ema_50, b.macd, b.macd_signal, b.rsi, b.adx, b.atr,
        b.aroon_oscillator, b.close with
    | some a1, some a2, some a3, some a4, some a5, some a6, some a7, some a8, some a9,
      some a10 => some ⟨a1, a2, a3, a4, a5, a6, a7, a8, a9, a10⟩
    | _, _, _, _, _, _, _, _, _, _ => none

/-- Fibonacci support condition of check_buy_condition: the close lies inside the
inclusive band between the 0.618 and 0.5 retracement levels; false when the swing
finder fails (degenerate or undefined range). -/
def fiboSupport (df : DataFrame) (fibo_lookback_period : ℕ) (current_close : ℚ) : Bool :=
  match find_recent_swing_high_low df fibo_lookback_period with
  | none => false
  | some (swing_high, swing_low) =>
      let price_range := swing_high - swing_low
      let fib_50_level := swing_high - price_range * (1 / 2)
      let fib_618_level := swing_high - price_range * (618 / 1000)
      decide (fib_618_level ≤ current_close ∧ current_close ≤ fib_50_level)

/-- Score of check_buy_condition: the sum of the seven weighted conditions. -/
def buyScore (df : DataFrame) (fibo_lookback_period : ℕ) (rsi_overbought adx_trend_threshold : ℚ)
    (v : BuyVals) : ℤ :=
  (if v.ema_12 > v.ema_26 ∧ v.ema_26 > v.ema_50 then 2 else 0)
  + (if v.macd > v.macd_signal then 1 else 0)
  + (if v.rsi < rsi_overbought then 1 else 0)
  + (if v.adx > adx_trend_threshold then 1 else 0)
  + (if fiboSupport df fibo_lookback_period v.close then 2 else 0)
  + (if v.atr < atrMean df.rows then 1 else 0)
  + (if v.aroon_oscillator > 0 then 1 else 0)

/-- Embedding of strategy.check_buy_condition.  As in the source, the value returned
is a single boolean: true when the score reaches buy_score_threshold, false on any
failed guard (fewer than 2 rows, missing column, undefined latest values). -/
def check_buy_condition (df : DataFrame) (fibo_lookback_period : ℕ)
    (rsi_overbought adx_trend_threshold : ℚ) (buy_score_threshold : ℤ) : Bool :=
  if df.rows.length < 2 then false
  else if hasCols df requiredBuyIndicators = false then false
  else
    match lastBuyVals? df with
    | none => false
    | some v =>
        decide (buyScore df fibo_lookback_period rsi_overbought adx_trend_threshold v
          ≥ buy_score_threshold)

/-- Defined values extracted from the last row for the sell check. -/
structure SellVals where
  ema_12 : ℚ
  ema_26 : ℚ
  macd : ℚ
  macd_signal : ℚ
  atr : ℚ
  aroon_oscillator : ℚ
  close : ℚ
deriving DecidableEq

/-- Extract the last row's critical sell values; none when any of them is NaN. -/
def lastSellVals? (df : DataFrame) : Option SellVals :=
  match df.rows.getLast? with
  | none => none
  | some b =>
    match b.ema_12, b.ema_26, b.macd, b.macd_signal, b.atr, b.aroon_oscillator, b.close with
    | some a1, some a2, some a3, some a4, some a5, some a6, some a7 =>
        some ⟨a1, a2, a3, a4, a5, a6, a7⟩
    | _, _, _, _, _, _, _ => none

/-- Embedding of strategy.check_sell_condition(df, entry_price, stop_loss_percent):
true when ANY of trend reversal, momentum loss, stop-loss breach, high volatility or
Aroon downtrend holds; false when the frame is empty, entry_price is nonpositive, a
required column is missing or a latest value is undefined. -/
def check_sell_condition (df : DataFrame) (entry_price stop_loss_percent : ℚ) : Bool :=
  if df.rows.isEmpty ∨ entry_price ≤ 0 then false
  else if hasCols df requiredSellIndicators = false then false
  else
    match lastSellVals? df with
    | none => false
    | some v =>
        let stop_loss_price := entry_price * (1 - stop_loss_percent)
        decide (v.ema_12 < v.ema_26) || decide (v.macd < v.macd_signal)
          || decide (v.close ≤ stop_loss_price) || decide (v.atr > atrMean df.rows)
          || decide (v.aroon_oscillator < 0)

/-!
Simulation loop of backtest.run_backtest (the live copy, src/backtest.py lines 281-427).

The loop's two calls into the strategy module cannot produce values: the source
unpacks the boolean result of check_buy_condition as a pair, and passes five
positional arguments to the three-parameter check_sell_condition (both calls are
examined below through the PyVal call model).  The accounting below therefore takes
the per-bar buy and sell decisions as inputs of each bar, and states the ledger,
trade-log and drawdown bookkeeping of the loop for an arbitrary decision stream.
The strategy-threshold parameters feed only those abstracted calls, so the loop
configuration keeps the fields the accounting reads.
-/

/-- Exit tag recorded in a trade: the source strings STOP_LOSS, SELL and
CLOSE_POSITION (the latter two are what the spec calls SIGNAL_SELL and
FORCED_CLOSE_AT_END). -/
inductive TradeType where
  | STOP_LOSS
  | SELL
  | CLOSE_POSITION
deriving DecidableEq

/-- Result tag recorded in a trade (the WIN/LOSS strings of the source). -/
inductive TradeResult where
  | WIN
  | LOSS
deriving DecidableEq

/-- Completed trade record as appended by the loop; times are bar indices. -/
structure Trade where
  entry_time : ℕ
  exit_time : ℕ
  entry_price : ℚ
  exit_price : ℚ
  position_size : ℚ
  pnl : ℚ
  commission : ℚ
  ttype : TradeType
  result : TradeResult
deriving DecidableEq

/-- Loop configuration: the run_backtest arguments the accounting reads. -/
structure RunConfig where
  initial_capital : ℚ
  commission : ℚ
  fibo_lookback_period : ℕ
  stop_loss_percent : ℚ
deriving DecidableEq

/-- One input bar of the loop: the close price together with the buy and sell
decisions the strategy calls would deliver at that bar. -/
structure StepIn where
  buySig : Bool
  sellSig : Bool
  close : ℚ
deriving DecidableEq

/-- Mutable state of the loop.  The field position is the unit count of
BacktestEngine.position: it is initialized to 0 and the loop never assigns it
(the loop tracks its holding in the locals in_position, entry_price and
position_size), yet the mark-to-market value still reads it. -/
structure EngineState where
  capital : ℚ
  position : ℚ
  in_position : Bool
  entry_price : ℚ
  position_size : ℚ
  entry_time : ℕ
  peak_capital : ℚ
  max_drawdown : ℚ
  total_trades : ℕ
  winning_trades : ℕ
  losing_trades : ℕ
  trades : List Trade
  lastClose : ℚ
  barsSeen : ℕ
deriving DecidableEq

/-- Initial state of BacktestEngine.__init__ plus the loop locals. -/
def initState (cfg : RunConfig) : EngineState :=
  { capital := cfg.initial_capital
    position := 0
    in_position := false
    entry_price := 0
    position_size := 0
    entry_time := 0
    peak_capital := cfg.initial_capital
    max_drawdown := 0
    total_trades := 0
    winning_trades := 0
    losing_trades := 0
    trades := []
    lastClose := 0
    barsSeen := 0 }

/-- Embedding of backtest._calculate_pnl_and_commission: net P&L and total
commission of a round trip. -/
def _calculate_pnl_and_commission (entry_price exit_price position_size commission_rate : ℚ) :
    ℚ × ℚ :=
  let entry_value := position_size * entry_price
  let exit_value := position_size * exit_price
  let commission_cost_buy := entry_value * commission_rate
  let commission_cost_sell := exit_value * commission_rate
  let gross_pnl := exit_value - entry_value
  let net_pnl := gross_pnl - commission_cost_buy - commission_cost_sell
  let total_commission := commission_cost_buy + commission_cost_sell
  (net_pnl, total_commission)

/-- Close of the open position, shared by the three textually parallel close blocks
of the source: credits size times exit price minus the TOTAL commission returned by
_calculate_pnl_and_commission, appends one trade record, and bumps exactly one of
the win/loss counters (a STOP_LOSS close is tagged LOSS without consulting the pnl;
the other closes win exactly when the net pnl is positive). -/
def closeTrade (cfg : RunConfig) (st : EngineState) (exit_price : ℚ) (tt : TradeType) :
    EngineState :=
  let pc := _calculate_pnl_and_commission st.entry_price exit_price st.position_size
    cfg.commission
  let res : TradeResult := match tt with
    | .STOP_LOSS => .LOSS
    | _ => if pc.1 > 0 then .WIN else .LOSS
  { st with
    capital := st.capital + st.position_size * exit_price - pc.2
    in_position := false
    trades := st.trades ++ [{ entry_time := st.entry_time
                              exit_time := st.barsSeen
                              entry_price := st.entry_price
                              exit_price := exit_price
                              position_size := st.position_size
                              pnl := pc.1
                              commission := pc.2
                              ttype := tt
                              result := res }]
    winning_trades := if res = .WIN then st.winning_trades + 1 else st.winning_trades
    losing_trades := if res = .LOSS then st.losing_trades + 1 else st.losing_trades }

/-- Top of each loop iteration: count the processed candle, remember its close,
record the mark-to-market value (capital plus engine position units times close) and
the running peak and drawdown.  This happens before any warm-up gating or decision. -/
def markBar (st0 : EngineState) (b : StepIn) : EngineState :=
  let st := { st0 with barsSeen := st0.barsSeen + 1, lastClose := b.close }
  let current_portfolio_value := st.capital + st.position * b.close
  let peak := max st.peak_capital current_portfolio_value
  let drawdown := (peak - current_portfolio_value) / peak
  { st with peak_capital := peak, max_drawdown := max st.max_drawdown drawdown }

/-- Entry transition of the loop: 99 percent sizing at the close, the entry value
plus the entry commission debited from capital, the entry counter bumped. -/
def enterTrade (cfg : RunConfig) (st : EngineState) (b : StepIn) : EngineState :=
  let entry_price := b.close
  let position_size := st.capital * (99 / 100) / entry_price
  { st with
    capital := st.capital - position_size * entry_price * (1 + cfg.commission)
    in_position := true
    entry_price := entry_price
    position_size := position_size
    entry_time := st.barsSeen
    total_trades := st.total_trades + 1 }

/-- Decision stage of each loop iteration: skip while fewer than
fibo_lookback_period + 50 bars of history exist, otherwise enter on a buy decision
when flat, and when long close by stop-loss breach first and otherwise by the sell
decision. -/
def decideBar (cfg : RunConfig) (st : EngineState) (b : StepIn) : EngineState :=
  if st.barsSeen < cfg.fibo_lookback_period + 50 then st
  else if st.in_position = false then
    if b.buySig then enterTrade cfg st b else st
  else
    if b.close ≤ st.entry_price * (1 - cfg.stop_loss_percent) then
      closeTrade cfg st b.close .STOP_LOSS
    else if b.sellSig then
      closeTrade cfg st b.close .SELL
    else st

/-- One iteration of the per-bar loop: the mark/drawdown stage followed by the
decision stage. -/
def stepBar (cfg : RunConfig) (st0 : EngineState) (b : StepIn) : EngineState :=
  decideBar cfg (markBar st0 b) b

/-- The whole per-bar loop. -/
def runLoop (cfg : RunConfig) (bars : List StepIn) : EngineState :=
  bars.foldl (stepBar cfg) (initState cfg)

/-- Finalize-open-positions block: a position still open after the last bar is
closed at the last available close with the CLOSE_POSITION tag. -/
def finalizeState (cfg : RunConfig) (st : EngineState) : EngineState :=
  if st.in_position then closeTrade cfg st st.lastClose .CLOSE_POSITION else st

/-- Results record assembled by run_backtest.  max_drawdown_percent copies
engine.max_drawdown unscaled, exactly as the source's results dict does. -/
structure RunResults where
  initial_capital : ℚ
  final_capital : ℚ
  total_return_percent : ℚ
  total_trades : ℕ
  winning_trades : ℕ
  losing_trades : ℕ
  win_rate_percent : ℚ
  max_drawdown_percent : ℚ
  trades : List Trade
deriving DecidableEq

/-- Embedding of backtest.run_backtest over an already-supplied bar sequence.
The CSV reader get_historical_data_from_csv is absent from the repository sources
(backtest.py only imports it), so following the spec's external interface
fetch_enriched_bars the supplied sequence stands for whatever bars the reader would
yield; an empty file yields no bars, and the loop then runs zero iterations. -/
def run_backtest (cfg : RunConfig) (bars : List StepIn) : RunResults :=
  let st := finalizeState cfg (runLoop cfg bars)
  { initial_capital := cfg.initial_capital
    final_capital := st.capital
    total_return_percent := (st.capital - cfg.initial_capital) / cfg.initial_capital * 100
    total_trades := st.total_trades
    winning_trades := st.winning_trades
    losing_trades := st.losing_trades
    win_rate_percent :=
      if 0 < st.total_trades then (st.winning_trades : ℚ) / (st.total_trades : ℚ) * 100 else 0
    max_drawdown_percent := st.max_drawdown
    trades := st.trades }

/-!
Spec-side definitions, for refinement comparison with the source functions above,
and a small dynamic-call model used to examine the two strategy invocations of the
simulation loop.
-/

/-- Spec 4.2 condition table for the Entry Signal Evaluator: the ordered
(predicate, weight) pairs. -/
def entry_conditions_spec (df : DataFrame) (fibo_lookback_period : ℕ)
    (rsi_overbought adx_trend_threshold : ℚ) (v : BuyVals) : List (Bool × ℤ) :=
  [(decide (v.ema_12 > v.ema_26 ∧ v.ema_26 > v.ema_50), 2),
   (decide (v.macd > v.macd_signal), 1),
   (decide (v.rsi < rsi_overbought), 1),
   (decide (v.adx > adx_trend_threshold), 1),
   (fiboSupport df fibo_lookback_period v.close, 2),
   (decide (v.atr < atrMean df.rows), 1),
   (decide (v.aroon_oscillator > 0), 1)]

/-- Entry Signal Evaluator as the spec words it (section 4.2): a pair of the
decision and the score, the score being the sum of the weights of the satisfied
conditions, firing iff the score reaches buy_score_threshold, and (false, 0) when
the window has fewer than 2 bars, a required column is missing, or the latest
values are undefined. -/
def entry_scorer_spec (df : DataFrame) (fibo_lookback_period : ℕ)
    (rsi_overbought adx_trend_threshold : ℚ) (buy_score_threshold : ℤ) : Bool × ℤ :=
  if 2 ≤ df.rows.length ∧ hasCols df requiredBuyIndicators = true then
    match lastBuyVals? df with
    | some v =>
        let score :=
          ((entry_conditions_spec df fibo_lookback_period rsi_overbought adx_trend_threshold
            v).map (fun cw => if cw.1 then cw.2 else 0)).sum
        (decide (buy_score_threshold ≤ score), score)
    | none => (false, 0)
  else (false, 0)

/-- Spec 4.3 condition list for the Exit Signal Evaluator. -/
def exit_conditions_spec (df : DataFrame) (entry_price stop_loss_percent : ℚ)
    (v : SellVals) : List Bool :=
  [decide (v.ema_12 < v.ema_26),
   decide (v.macd < v.macd_signal),
   decide (v.close ≤ entry_price * (1 - stop_loss_percent)),
   decide (v.atr > atrMean df.rows),
   decide (v.aroon_oscillator < 0)]

/-- Exit Signal Evaluator as the spec words it (section 4.3): true if ANY of the
five conditions holds, failing closed when entry_price is nonpositive, the window
is empty, or required values are undefined. -/
def exit_evaluator_spec (df : DataFrame) (entry_price stop_loss_percent : ℚ) : Bool :=
  if 0 < entry_price ∧ df.rows.isEmpty = false ∧ hasCols df requiredSellIndicators = true then
    match lastSellVals? df with
    | some v => (exit_conditions_spec df entry_price stop_loss_percent v).any id
    | none => false
  else false

/-- Dynamic value, enough of Python's data model to describe what the strategy
calls of the loop pass and return: booleans, numbers, pairs and data frames. -/
inductive PyVal where
  | bool (b : Bool)
  | num (q : ℚ)
  | pair (a b : PyVal)
  | frame (d : DataFrame)
deriving DecidableEq

/-- Whether a dynamic value is a pair (what an unpacking assignment of two names
requires of it). -/
def PyVal.isPair : PyVal → Bool
  | .pair _ _ => true
  | _ => false

/-- Dynamic return value of check_buy_condition: the source returns the single
boolean buy_signal (strategy.py line 162), never a tuple. -/
def check_buy_condition_py (df : DataFrame) (fibo_lookback_period : ℕ)
    (rsi_overbought adx_trend_threshold : ℚ) (buy_score_threshold : ℤ) : PyVal :=
  .bool (check_buy_condition df fibo_lookback_period rsi_overbought adx_trend_threshold
    buy_score_threshold)

/-- Calling convention of check_sell_condition(df, entry_price, stop_loss_percent):
a call resolves to a boolean only when given exactly a frame and two numbers; any
other argument list is a TypeError, modelled as none. -/
def callCheckSellCondition (args : List PyVal) : Option Bool :=
  match args with
  | [.frame df, .num entry_price, .num stop_loss_percent] =>
      some (check_sell_condition df entry_price stop_loss_percent)
  | _ => none

/-- Argument list the simulation loop passes to check_sell_condition (backtest.py
line 335): the lookback frame followed by fibo_lookback_period, rsi_overbought,
adx_trend_threshold and buy_score_threshold. -/
def loopSellArgs (lookback_df : DataFrame) (fibo_lookback_period : ℕ)
    (rsi_overbought adx_trend_threshold : ℚ) (buy_score_threshold : ℤ) : List PyVal :=
  [.frame lookback_df, .num fibo_lookback_period, .num rsi_overbought,
   .num adx_trend_threshold, .num buy_score_threshold]

/-!
Concrete inputs used to evaluate the definitions.
-/

/-- Enriched row with every indicator defined; the latest values make the sell
check fire through trend reversal while the close sits above a stop at 97. -/
def barW1 : Bar :=
  { close := some 100, high := some 110, low := some 90, ema_12 := some 1, ema_26 := some 2,
    ema_50 := some 3, macd := some 0, macd_signal := some 1, rsi := some 50, adx := some 30,
    atr := some 5, aroon_oscillator := some (-10) }

/-- Second enriched row, close 98. -/
def barW2 : Bar :=
  { close := some 98, high := some 108, low := some 92, ema_12 := some 1, ema_26 := some 2,
    ema_50 := some 3, macd := some 0, macd_signal := some 1, rsi := some 50, adx := some 30,
    atr := some 5, aroon_oscillator := some (-10) }

/-- Two-row frame carrying every column the strategy requires. -/
def dfW : DataFrame :=
  { columns := ["open", "high", "low", "close", "volume", "ema_12", "ema_26", "ema_50",
      "macd", "macd_signal", "rsi", "adx", "atr", "aroon_oscillator"]
    rows := [barW1, barW2] }

/-- Flat no-decision bars at price 100. -/
def flatBars (n : ℕ) : List StepIn :=
  List.replicate n { buySig := false, sellSig := false, close := 100 }

/-- Default-parameter loop configuration with the shortest legal warm-up. -/
def cfgA : RunConfig :=
  { initial_capital := 10000, commission := 1 / 1000, fibo_lookback_period := 1,
    stop_loss_percent := 3 / 100 }

/-- The same configuration with a 50 percent commission rate, still inside the
parameter range commission_rate in [0, 1). -/
def cfgB : RunConfig :=
  { initial_capital := 10000, commission := 1 / 2, fibo_lookback_period := 1,
    stop_loss_percent := 3 / 100 }

/-- 52-bar run at constant price 100: warm-up, entry at bar 51, one held bar, so the
run ends with the position force-closed at 100. -/
def runA : List StepIn :=
  flatBars 50 ++ [{ buySig := true, sellSig := false, close := 100 },
    { buySig := false, sellSig := false, close := 100 }]

/-- 51-bar run at constant price 100 whose last bar opens a position, so the loop
itself ends still long. -/
def runOpen : List StepIn :=
  flatBars 50 ++ [{ buySig := true, sellSig := false, close := 100 }]

/-- Long state right after the entry of runA at bar 51: entry at 100, size 99,
remaining cash 90.1. -/
def stateLongA : EngineState :=
  { capital := 901 / 10, position := 0, in_position := true, entry_price := 100,
    position_size := 99, entry_time := 51, peak_capital := 10000, max_drawdown := 0,
    total_trades := 1, winning_trades := 0, losing_trades := 0, trades := [],
    lastClose := 100, barsSeen := 51 }

/-!
Invariant machinery for the loop.
-/

/-- Fold a state invariant through the loop, with a per-bar side condition. -/
lemma foldl_step_inv (cfg : RunConfig) (P : EngineState → Prop) (Q : StepIn → Prop)
    (hstep : ∀ st b, P st → Q b → P (stepBar cfg st b)) :
    ∀ (l : List StepIn) (st : EngineState), P st → (∀ b ∈ l, Q b) →
      P (l.foldl (stepBar cfg) st) := by
  intro l
  induction l with
  | nil => intro st h _; simpa using h
  | cons a l ih =>
      intro st h hq
      simp only [List.foldl_cons]
      exact ih _ (hstep _ _ h (hq a (by simp))) (fun b hb => hq b (by simp [hb]))

/-- Bookkeeping facts of one close: the total stays, the flag clears, one record is
appended, one counter bumps, the last record carries the given tag and exit price,
and the untouched fields survive. -/
lemma closeTrade_fields (cfg : RunConfig) (st : EngineState) (x : ℚ) (tt : TradeType) :
    (closeTrade cfg st x tt).total_trades = st.total_trades
    ∧ (closeTrade cfg st x tt).in_position = false
    ∧ (closeTrade cfg st x tt).trades.length = st.trades.length + 1
    ∧ (closeTrade cfg st x tt).winning_trades + (closeTrade cfg st x tt).losing_trades
        = st.winning_trades + st.losing_trades + 1
    ∧ ((closeTrade cfg st x tt).trades.getLast?).map Trade.ttype = some tt
    ∧ ((closeTrade cfg st x tt).trades.getLast?).map Trade.exit_price = some x
    ∧ (closeTrade cfg st x tt).lastClose = st.lastClose
    ∧ (closeTrade cfg st x tt).barsSeen = st.barsSeen := by
  cases tt <;>
    simp only [closeTrade, List.getLast?_concat, Option.map_some] <;>
    split_ifs <;> simp_all <;> omega

/-- Counter identity carried through the loop: the entry counter equals the closes
recorded so far plus the possible open position, and the log length equals the
closes recorded so far. -/
def countersOk (st : EngineState) : Prop :=
  st.total_trades = st.winning_trades + st.losing_trades + (if st.in_position then 1 else 0)
  ∧ st.trades.length = st.winning_trades + st.losing_trades

lemma markBar_fields (st : EngineState) (b : StepIn) :
    (markBar st b).capital = st.capital ∧ (markBar st b).position = st.position
    ∧ (markBar st b).in_position = st.in_position
    ∧ (markBar st b).entry_price = st.entry_price
    ∧ (markBar st b).position_size = st.position_size
    ∧ (markBar st b).entry_time = st.entry_time
    ∧ (markBar st b).total_trades = st.total_trades
    ∧ (markBar st b).winning_trades = st.winning_trades
    ∧ (markBar st b).losing_trades = st.losing_trades
    ∧ (markBar st b).trades = st.trades
    ∧ (markBar st b).lastClose = b.close
    ∧ (markBar st b).barsSeen = st.barsSeen + 1 := by
  repeat constructor

lemma closeTrade_countersOk (cfg : RunConfig) (st : EngineState) (x : ℚ) (tt : TradeType)
    (hlong : st.in_position = true) (h : countersOk st) :
    countersOk (closeTrade cfg st x tt) := by
  rcases h with ⟨ha, hb⟩
  rw [hlong] at ha
  simp only [if_pos] at ha
  unfold countersOk closeTrade
  cases tt <;>
      by_cases hp :
        0 < (_calculate_pnl_and_commission st.entry_price x st.position_size cfg.commission).1 <;>
    simp_all <;> omega

lemma decideBar_countersOk (cfg : RunConfig) (st : EngineState) (b : StepIn)
    (h : countersOk st) : countersOk (decideBar cfg st b) := by
  rcases h with ⟨ha, hb⟩
  unfold decideBar
  split_ifs with hgate hflat hbuy hbreach hsell
  · exact ⟨ha, hb⟩
  · rw [hflat] at ha
    unfold countersOk enterTrade
    simp_all
  · exact ⟨ha, hb⟩
  · exact closeTrade_countersOk cfg st b.close .STOP_LOSS (by simpa using hflat) ⟨ha, hb⟩
  · exact closeTrade_countersOk cfg st b.close .SELL (by simpa using hflat) ⟨ha, hb⟩
  · exact ⟨ha, hb⟩

lemma markBar_countersOk (st : EngineState) (b : StepIn) (h : countersOk st) :
    countersOk (markBar st b) := by
  rcases markBar_fields st b with ⟨-, -, h3, -, -, -, h7, h8, h9, h10, -⟩
  unfold countersOk at h ⊢
  rw [h3, h7, h8, h9, h10]
  exact h

lemma stepBar_countersOk (cfg : RunConfig) (st : EngineState) (b : StepIn)
    (h : countersOk st) : countersOk (stepBar cfg st b) :=
  decideBar_countersOk cfg (markBar st b) b (markBar_countersOk st b h)

lemma runLoop_countersOk (cfg : RunConfig) (bars : List StepIn) :
    countersOk (runLoop cfg bars) :=
  foldl_step_inv cfg countersOk (fun _ => True)
    (fun st b hst _ => stepBar_countersOk cfg st b hst) bars (initState cfg)
    (by constructor <;> simp [initState, countersOk]) (fun _ _ => trivial)

lemma finalizeState_countersOk (cfg : RunConfig) (st : EngineState) (h : countersOk st) :
    (finalizeState cfg st).total_trades
      = (finalizeState cfg st).winning_trades + (finalizeState cfg st).losing_trades
    ∧ (finalizeState cfg st).trades.length
      = (finalizeState cfg st).winning_trades + (finalizeState cfg st).losing_trades := by
  unfold finalizeState
  split_ifs with hopen
  · rcases closeTrade_countersOk cfg st st.lastClose .CLOSE_POSITION hopen h with ⟨ha, hb⟩
    rcases closeTrade_fields cfg st st.lastClose .CLOSE_POSITION with ⟨-, hip, -⟩
    rw [hip] at ha
    simp only [Bool.false_eq_true, if_false] at ha
    exact ⟨ha, hb⟩
  · rcases h with ⟨ha, hb⟩
    have hf : st.in_position = false := by simpa using hopen
    rw [hf] at ha
    simp only [Bool.false_eq_true, if_false] at ha
    exact ⟨ha, hb⟩

/-- C10: at the end of every run total_trades equals winning_trades plus
losing_trades, and the trade log holds exactly total_trades records. -/
theorem C10_trade_count_identity (cfg : RunConfig) (bars : List StepIn) :
    (run_backtest cfg bars).total_trades
      = (run_backtest cfg bars).winning_trades + (run_backtest cfg bars).losing_trades
    ∧ (run_backtest cfg bars).trades.length = (run_backtest cfg bars).total_trades := by
  have hfin := finalizeState_countersOk cfg _ (runLoop_countersOk cfg bars)
  refine ⟨hfin.1, ?_⟩
  show (finalizeState cfg (runLoop cfg bars)).trades.length
    = (finalizeState cfg (runLoop cfg bars)).total_trades
  rw [hfin.2, hfin.1]

/-- Win/loss classification carried through the loop: a record wins exactly when it
is a non-stop close with strictly positive net pnl, and the two counters count the
records so classified. -/
def winLossOk (st : EngineState) : Prop :=
  (∀ t ∈ st.trades, t.result = TradeResult.WIN ↔ t.ttype ≠ TradeType.STOP_LOSS ∧ 0 < t.pnl)
  ∧ st.winning_trades = st.trades.countP (fun t => decide (t.result = TradeResult.WIN))
  ∧ st.losing_trades = st.trades.countP (fun t => decide (t.result = TradeResult.LOSS))

lemma closeTrade_winLossOk (cfg : RunConfig) (st : EngineState) (x : ℚ) (tt : TradeType)
    (h : winLossOk st) : winLossOk (closeTrade cfg st x tt) := by
  rcases h with ⟨ha, hb, hc⟩
  unfold winLossOk closeTrade
  cases tt <;>
      by_cases hp :
        0 < (_calculate_pnl_and_commission st.entry_price x st.position_size cfg.commission).1 <;>
    simp_all [List.countP_append, List.countP_cons] <;>
    rintro t (ht | rfl) <;>
    first
      | exact ha t ht
      | simp [hp]

lemma decideBar_winLossOk (cfg : RunConfig) (st : EngineState) (b : StepIn)
    (h : winLossOk st) : winLossOk (decideBar cfg st b) := by
  unfold decideBar
  split_ifs with hgate hflat hbuy hbreach hsell
  · exact h
  · rcases h with ⟨ha, hb, hc⟩
    exact ⟨ha, hb, hc⟩
  · exact h
  · exact closeTrade_winLossOk cfg st b.close .STOP_LOSS h
  · exact closeTrade_winLossOk cfg st b.close .SELL h
  · exact h

lemma stepBar_winLossOk (cfg : RunConfig) (st : EngineState) (b : StepIn)
    (h : winLossOk st) : winLossOk (stepBar cfg st b) := by
  refine decideBar_winLossOk cfg (markBar st b) b ?_
  rcases h with ⟨ha, hb, hc⟩
  exact ⟨ha, hb, hc⟩

/-- C9: in every run a recorded trade wins exactly when it is a non-stop-loss close
with strictly positive net pnl (a zero-pnl close is a LOSS, a stop-loss close is a
LOSS unconditionally), and the win/loss counters count exactly those records. -/
theorem C9_win_loss_classification (cfg : RunConfig) (bars : List StepIn) :
    (∀ t ∈ (run_backtest cfg bars).trades,
      t.result = TradeResult.WIN ↔ t.ttype ≠ TradeType.STOP_LOSS ∧ 0 < t.pnl)
    ∧ (run_backtest cfg bars).winning_trades
      = (run_backtest cfg bars).trades.countP (fun t => decide (t.result = TradeResult.WIN))
    ∧ (run_backtest cfg bars).losing_trades
      = (run_backtest cfg bars).trades.countP (fun t => decide (t.result = TradeResult.LOSS)) := by
  have hloop : winLossOk (runLoop cfg bars) :=
    foldl_step_inv cfg winLossOk (fun _ => True)
      (fun st b hst _ => stepBar_winLossOk cfg st b hst) bars (initState cfg)
      (by refine ⟨?_, ?_, ?_⟩ <;> simp [initState]) (fun _ _ => trivial)
  have hfin : winLossOk (finalizeState cfg (runLoop cfg bars)) := by
    unfold finalizeState
    split_ifs with hopen
    · exact closeTrade_winLossOk cfg _ _ .CLOSE_POSITION hloop
    · exact hloop
  exact hfin

/-- C5: on a processed bar (one past warm-up) where the position is long and the
close is at or below entry_price times (1 - stop_loss_percent), the loop closes the
position on that same bar with tag STOP_LOSS and not SELL, for every value of the
sell decision, and books the close as a loss. -/
theorem C5_stop_loss_precedence (cfg : RunConfig) (st : EngineState) (b : StepIn)
    (hlong : st.in_position = true)
    (hwarm : cfg.fibo_lookback_period + 50 ≤ st.barsSeen + 1)
    (hbreach : b.close ≤ st.entry_price * (1 - cfg.stop_loss_percent)) :
    (stepBar cfg st b).in_position = false
    ∧ (stepBar cfg st b).trades.length = st.trades.length + 1
    ∧ ((stepBar cfg st b).trades.getLast?).map Trade.ttype = some TradeType.STOP_LOSS
    ∧ ((stepBar cfg st b).trades.getLast?).map Trade.ttype ≠ some TradeType.SELL
    ∧ (stepBar cfg st b).losing_trades = st.losing_trades + 1 := by
  have hstep : stepBar cfg st b = closeTrade cfg (markBar st b) b.close .STOP_LOSS := by
    unfold stepBar decideBar
    rcases markBar_fields st b with ⟨-, -, h3, h4, -, -, -, -, -, -, -, h12⟩
    rw [h3, h4, h12, if_neg (by omega), if_neg (by simp [hlong]), if_pos hbreach]
  rcases closeTrade_fields cfg (markBar st b) b.close .STOP_LOSS with
    ⟨-, hip, hlen, -, hlast, -, -, -⟩
  rcases markBar_fields st b with ⟨-, -, -, -, -, -, -, -, h9, h10, -, -⟩
  refine ⟨by rw [hstep, hip], by rw [hstep, hlen, h10], by rw [hstep, hlast],
    by rw [hstep, hlast]; simp, ?_⟩
  rw [hstep]
  unfold closeTrade
  simp [h9]

lemma closeTrade_lastClose (cfg : RunConfig) (st : EngineState) (x : ℚ) (tt : TradeType) :
    (closeTrade cfg st x tt).lastClose = st.lastClose :=
  (closeTrade_fields cfg st x tt).2.2.2.2.2.2.1

lemma stepBar_lastClose (cfg : RunConfig) (st : EngineState) (b : StepIn) :
    (stepBar cfg st b).lastClose = b.close := by
  have hm : (markBar st b).lastClose = b.close := rfl
  unfold stepBar decideBar
  split_ifs <;>
    simp [closeTrade_lastClose, hm, enterTrade]

lemma foldl_lastClose (cfg : RunConfig) :
    ∀ (l : List StepIn) (st : EngineState) (b : StepIn), l.getLast? = some b →
      (l.foldl (stepBar cfg) st).lastClose = b.close := by
  intro l
  induction l with
  | nil => intro st b h; simp at h
  | cons a l ih =>
      intro st b h
      cases l with
      | nil =>
          simp only [List.getLast?_singleton, Option.some_inj] at h
          subst h
          simpa using stepBar_lastClose cfg st a
      | cons c l2 =>
          rw [List.getLast?_cons_cons] at h
          simpa using ih (stepBar cfg st a) b h

/-- C6: every run ends settled: after the finalize step no position is open, and
when the loop ends still long the results carry exactly one extra trade, tagged
CLOSE_POSITION (the source tag of the forced end-of-run close), whose exit price is
the last recorded close, which is the close of the last bar of the sequence. -/
theorem C6_forced_close_settles (cfg : RunConfig) (bars : List StepIn) :
    (finalizeState cfg (runLoop cfg bars)).in_position = false
    ∧ ((runLoop cfg bars).in_position = true →
        (run_backtest cfg bars).trades.length = (runLoop cfg bars).trades.length + 1
        ∧ ((run_backtest cfg bars).trades.getLast?).map Trade.ttype
            = some TradeType.CLOSE_POSITION
        ∧ ((run_backtest cfg bars).trades.getLast?).map Trade.exit_price
            = some (runLoop cfg bars).lastClose)
    ∧ ((runLoop cfg bars).in_position = false →
        (run_backtest cfg bars).trades = (runLoop cfg bars).trades)
    ∧ (∀ b, bars.getLast? = some b → (runLoop cfg bars).lastClose = b.close) := by
  refine ⟨?_, ?_, ?_, ?_⟩
  · unfold finalizeState
    split_ifs with hopen
    · exact (closeTrade_fields cfg _ _ .CLOSE_POSITION).2.1
    · simpa using hopen
  · intro hopen
    have hres : (run_backtest cfg bars).trades
        = (closeTrade cfg (runLoop cfg bars) (runLoop cfg bars).lastClose
            .CLOSE_POSITION).trades := by
      show (finalizeState cfg (runLoop cfg bars)).trades = _
      unfold finalizeState
      rw [if_pos hopen]
    rcases closeTrade_fields cfg (runLoop cfg bars) (runLoop cfg bars).lastClose
        .CLOSE_POSITION with ⟨-, -, hlen, -, hlast, hxp, -, -⟩
    exact ⟨by rw [hres, hlen], by rw [hres, hlast], by rw [hres, hxp]⟩
  · intro hflat
    show (finalizeState cfg (runLoop cfg bars)).trades = _
    unfold finalizeState
    rw [if_neg (by simp [hflat])]
  · intro b hb
    exact foldl_lastClose cfg bars (initState cfg) b hb

/-- C7 (amended): on an empty input sequence the run raises nothing and returns the
default zero-trade result: no trades, total_trades zero, and the final capital equal
to the initial capital. -/
theorem C7_empty_input_returns_default (cfg : RunConfig) :
    (run_backtest cfg []).total_trades = 0
    ∧ (run_backtest cfg []).trades = []
    ∧ (run_backtest cfg []).final_capital = cfg.initial_capital := by
  refine ⟨?_, ?_, ?_⟩ <;>
    simp [run_backtest, runLoop, finalizeState, initState]

lemma buyScore_eq_spec (df : DataFrame) (fibo : ℕ) (r a : ℚ) (v : BuyVals) :
    ((entry_conditions_spec df fibo r a v).map (fun cw => if cw.1 then cw.2 else 0)).sum
      = buyScore df fibo r a v := by
  by_cases h1 : v.ema_12 > v.ema_26 ∧ v.ema_26 > v.ema_50 <;>
  by_cases h2 : v.macd > v.macd_signal <;>
  by_cases h3 : v.rsi < r <;>
  by_cases h4 : v.adx > a <;>
  by_cases h5 : fiboSupport df fibo v.close = true <;>
  by_cases h6 : v.atr < atrMean df.rows <;>
  by_cases h7 : v.aroon_oscillator > 0 <;>
  simp [entry_conditions_spec, buyScore, h1, h2, h3, h4, h5, h6, h7]

lemma check_buy_eq_spec (df : DataFrame) (fibo : ℕ) (r a : ℚ) (bst : ℤ) :
    check_buy_condition df fibo r a bst = (entry_scorer_spec df fibo r a bst).1 := by
  unfold check_buy_condition entry_scorer_spec
  by_cases h1 : df.rows.length < 2
  · rw [if_pos h1, if_neg (by rintro ⟨hle, -⟩; omega)]
  · rw [if_neg h1]
    by_cases h2 : hasCols df requiredBuyIndicators = true
    · rw [if_neg (by simp [h2]), if_pos ⟨by omega, h2⟩]
      cases hv : lastBuyVals? df with
      | none => simp
      | some v =>
          simp only
          rw [buyScore_eq_spec]
    · rw [if_pos (by simpa using h2), if_neg (by rintro ⟨-, hc⟩; exact h2 hc)]

lemma check_sell_eq_spec (df : DataFrame) (e s : ℚ) :
    check_sell_condition df e s = exit_evaluator_spec df e s := by
  unfold check_sell_condition exit_evaluator_spec
  by_cases h1 : df.rows.isEmpty = true ∨ e ≤ 0
  · rw [if_pos h1, if_neg ?_]
    rintro ⟨he, hne, -⟩
    rcases h1 with h1 | h1
    · rw [h1] at hne; exact Bool.true_eq_false.mp hne
    · exact absurd he (not_lt.mpr h1)
  · push_neg at h1
    rcases h1 with ⟨hne, hgt⟩
    rw [if_neg (by push_neg; exact ⟨hne, hgt⟩)]
    by_cases h2 : hasCols df requiredSellIndicators = true
    · rw [if_neg (by simp [h2]),
        if_pos ⟨hgt, by simpa using hne, h2⟩]
      cases hv : lastSellVals? df with
      | none => simp
      | some v =>
          simp only [exit_conditions_spec, List.any_cons, List.any_nil, id_eq,
            Bool.or_false, Bool.or_assoc]
    · rw [if_pos (by simpa using h2), if_neg (by rintro ⟨-, -, hc⟩; exact h2 hc)]

/-- Cash invariant carried through the loop under a small commission rate: the cash
balance stays non-negative, the remembered close is non-negative, and while long the
entry-side commission of the eventual close is already covered by the balance. -/
def cashInv (cfg : RunConfig) (st : EngineState) : Prop :=
  0 ≤ st.capital ∧ 0 ≤ st.lastClose
  ∧ (st.in_position = true →
      0 ≤ st.position_size ∧ 0 ≤ st.entry_price
      ∧ st.position_size * st.entry_price * cfg.commission ≤ st.capital)

lemma closeTrade_capital (cfg : RunConfig) (st : EngineState) (x : ℚ) (tt : TradeType) :
    (closeTrade cfg st x tt).capital
      = st.capital + st.position_size * x
        - (st.position_size * st.entry_price * cfg.commission
            + st.position_size * x * cfg.commission) := by
  unfold closeTrade _calculate_pnl_and_commission
  cases tt <;> simp

lemma closeTrade_capital_nonneg (cfg : RunConfig) (st : EngineState) (x : ℚ) (tt : TradeType)
    (hc1 : cfg.commission ≤ 1) (hx : 0 ≤ x) (hsz : 0 ≤ st.position_size)
    (hcap : st.position_size * st.entry_price * cfg.commission ≤ st.capital) :
    0 ≤ (closeTrade cfg st x tt).capital := by
  rw [closeTrade_capital]
  nlinarith [mul_nonneg (mul_nonneg hsz hx) (sub_nonneg.mpr hc1)]

lemma enterTrade_cashInv (cfg : RunConfig) (st : EngineState) (b : StepIn)
    (hc0 : 0 ≤ cfg.commission) (hc : cfg.commission ≤ 1 / 198)
    (hcap : 0 ≤ st.capital) (hlc : 0 ≤ st.lastClose) (hcl : 0 < b.close) :
    cashInv cfg (enterTrade cfg st b) := by
  have hszep : st.capital * (99 / 100) / b.close * b.close = st.capital * (99 / 100) :=
    div_mul_cancel₀ _ (ne_of_gt hcl)
  have hfac : (0 : ℚ) ≤ 1 / 100 - 99 / 100 * cfg.commission := by linarith
  have hkey : st.capital - st.capital * (99 / 100) * (1 + cfg.commission)
      = st.capital * (1 / 100 - 99 / 100 * cfg.commission) := by ring
  have hsz : 0 ≤ st.capital * (99 / 100) / b.close :=
    div_nonneg (mul_nonneg hcap (by norm_num)) hcl.le
  refine ⟨?_, hlc, fun _ => ⟨hsz, hcl.le, ?_⟩⟩
  · show 0 ≤ st.capital - st.capital * (99 / 100) / b.close * b.close * (1 + cfg.commission)
    rw [hszep, hkey]
    exact mul_nonneg hcap hfac
  · show st.capital * (99 / 100) / b.close * b.close * cfg.commission
      ≤ st.capital - st.capital * (99 / 100) / b.close * b.close * (1 + cfg.commission)
    rw [hszep, hkey]
    have h2 : 99 / 100 * cfg.commission ≤ 1 / 100 - 99 / 100 * cfg.commission := by linarith
    calc st.capital * (99 / 100) * cfg.commission
        = st.capital * (99 / 100 * cfg.commission) := by ring
      _ ≤ st.capital * (1 / 100 - 99 / 100 * cfg.commission) :=
          mul_le_mul_of_nonneg_left h2 hcap
      _ = st.capital * (1 / 100 - 99 / 100 * cfg.commission) := rfl

lemma closeTrade_cashInv (cfg : RunConfig) (st : EngineState) (x : ℚ) (tt : TradeType)
    (hc1 : cfg.commission ≤ 1) (hx : 0 ≤ x) (hsz : 0 ≤ st.position_size)
    (hcap : st.position_size * st.entry_price * cfg.commission ≤ st.capital)
    (hlc : 0 ≤ st.lastClose) :
    cashInv cfg (closeTrade cfg st x tt) := by
  refine ⟨closeTrade_capital_nonneg cfg st x tt hc1 hx hsz hcap, ?_, ?_⟩
  · rw [closeTrade_lastClose]; exact hlc
  · intro hpos
    rw [(closeTrade_fields cfg st x tt).2.1] at hpos
    simp at hpos

lemma decideBar_cashInv (cfg : RunConfig) (st : EngineState) (b : StepIn)
    (hc0 : 0 ≤ cfg.commission) (hc : cfg.commission ≤ 1 / 198)
    (hcl : 0 < b.close) (h : cashInv cfg st) : cashInv cfg (decideBar cfg st b) := by
  have hc1 : cfg.commission ≤ 1 := le_trans hc (by norm_num)
  rcases h with ⟨hcap, hlc, hlong⟩
  unfold decideBar
  split_ifs with hgate hflat hbuy hbreach hsell
  · exact ⟨hcap, hlc, hlong⟩
  · exact enterTrade_cashInv cfg st b hc0 hc hcap hlc hcl
  · exact ⟨hcap, hlc, hlong⟩
  · rcases hlong (by simpa using hflat) with ⟨hsz, -, hcov⟩
    exact closeTrade_cashInv cfg st b.close .STOP_LOSS hc1 hcl.le hsz hcov hlc
  · rcases hlong (by simpa using hflat) with ⟨hsz, -, hcov⟩
    exact closeTrade_cashInv cfg st b.close .SELL hc1 hcl.le hsz hcov hlc
  · exact ⟨hcap, hlc, hlong⟩

lemma markBar_cashInv (cfg : RunConfig) (st : EngineState) (b : StepIn)
    (hcl : 0 < b.close) (h : cashInv cfg st) : cashInv cfg (markBar st b) :=
  ⟨h.1, le_of_lt hcl, h.2.2⟩

lemma runLoop_cashInv (cfg : RunConfig) (bars : List StepIn)
    (hinit : 0 ≤ cfg.initial_capital) (hc0 : 0 ≤ cfg.commission)
    (hc : cfg.commission ≤ 1 / 198) (hcl : ∀ b ∈ bars, 0 < b.close) :
    cashInv cfg (runLoop cfg bars) :=
  foldl_step_inv cfg (cashInv cfg) (fun b => 0 < b.close)
    (fun st b hst hb =>
      decideBar_cashInv cfg (markBar st b) b hc0 hc hb (markBar_cashInv cfg st b hb hst))
    bars (initState cfg) ⟨hinit, le_refl 0, by simp [initState]⟩ hcl

/-- C2 (amended): with commission_rate at most 1/198 and positive closes, the cash
balance is non-negative after every prefix of the run, the final balance included.
The counterexample shows the claim fails for general commission_rate in [0, 1). -/
theorem C2_cash_nonneg_small_commission (cfg : RunConfig) (bars pre suf : List StepIn)
    (hinit : 0 < cfg.initial_capital) (hc0 : 0 ≤ cfg.commission)
    (hc : cfg.commission ≤ 1 / 198) (hcl : ∀ b ∈ bars, 0 < b.close)
    (hsplit : bars = pre ++ suf) :
    0 ≤ (runLoop cfg pre).capital ∧ 0 ≤ (run_backtest cfg bars).final_capital := by
  have hclpre : ∀ b ∈ pre, 0 < b.close := by
    intro b hb
    exact hcl b (by rw [hsplit]; exact List.mem_append_left _ hb)
  have hpre := runLoop_cashInv cfg pre hinit.le hc0 hc hclpre
  have hall := runLoop_cashInv cfg bars hinit.le hc0 hc hcl
  have hc1 : cfg.commission ≤ 1 := le_trans hc (by norm_num)
  refine ⟨hpre.1, ?_⟩
  show 0 ≤ (finalizeState cfg (runLoop cfg bars)).capital
  unfold finalizeState
  split_ifs with hopen
  · rcases hall.2.2 hopen with ⟨hsz, -, hcov⟩
    exact closeTrade_capital_nonneg cfg _ _ .CLOSE_POSITION hc1 hall.2.1 hsz hcov
  · exact hall.1

set_option maxRecDepth 100000
set_option maxHeartbeats 2000000

/-- C3 (code bug): the entry evaluator computes exactly the specified decision —
score of the seven weighted conditions against buy_score_threshold, failing closed —
but returns the single boolean, never the (decision, score) pair that the claim
states and that its caller unpacks. -/
theorem C3_entry_evaluator_returns_bool :
    (∀ (df : DataFrame) (fibo : ℕ) (r a : ℚ) (bst : ℤ),
      check_buy_condition df fibo r a bst = (entry_scorer_spec df fibo r a bst).1)
    ∧ (check_buy_condition_py dfW 1 68 25 4).isPair = false :=
  ⟨fun df fibo r a bst => check_buy_eq_spec df fibo r a bst, rfl⟩

/-- C4 (code bug): the exit evaluator itself decides exactly the five specified
conditions with the specified fail-closed guards, but the loop call passes five
arguments (frame, fibo_lookback_period, rsi_overbought, adx_trend_threshold,
buy_score_threshold) instead of (frame, entry_price, stop_loss_percent), so the
invocation resolves to no boolean at all, even on a window where the evaluator
invoked as claimed would fire. -/
theorem C4_exit_evaluator_never_invoked_as_claimed :
    (∀ (df : DataFrame) (e s : ℚ), check_sell_condition df e s = exit_evaluator_spec df e s)
    ∧ callCheckSellCondition (loopSellArgs dfW 1 68 25 4) = none
    ∧ check_sell_condition dfW 100 (3 / 100) = true := by
  refine ⟨check_sell_eq_spec, rfl, ?_⟩
  have hcols : hasCols dfW requiredSellIndicators = true := by decide
  have hv : lastSellVals? dfW = some ⟨1, 2, 0, 1, 5, -10, 98⟩ := rfl
  unfold check_sell_condition
  rw [if_neg (by norm_num [dfW]), if_neg (by simp [hcols]), hv]
  norm_num

/-- C1 (code bug): the helper computes net_pnl exactly as the claim states, but the
close credits size times exit price minus the TOTAL commission — the entry-side
commission, already debited at entry, is deducted a second time — so the final
capital of a run that enters at 100 and is force-closed at 100 is 9970.3, not the
claimed initial capital plus total net pnl, 9980.2. -/
theorem C1_exit_commission_double_charged :
    _calculate_pnl_and_commission 100 100 99 (1 / 1000) = (-99 / 5, 99 / 5)
    ∧ (run_backtest cfgA runA).final_capital = 99703 / 10
    ∧ ((run_backtest cfgA runA).trades.map Trade.pnl).sum = -99 / 5
    ∧ cfgA.initial_capital + ((run_backtest cfgA runA).trades.map Trade.pnl).sum = 49901 / 5
    ∧ (run_backtest cfgA runA).final_capital
        ≠ cfgA.initial_capital + ((run_backtest cfgA runA).trades.map Trade.pnl).sum := by
  refine ⟨by norm_num [_calculate_pnl_and_commission], ?_, ?_, ?_, ?_⟩ <;>
    norm_num [run_backtest, runLoop, finalizeState, stepBar, markBar, decideBar, enterTrade,
      closeTrade, initState, _calculate_pnl_and_commission, flatBars, runA, cfgA,
      List.replicate, max_def]

lemma finalizeState_max_drawdown (cfg : RunConfig) (st : EngineState) :
    (finalizeState cfg st).max_drawdown = st.max_drawdown := by
  unfold finalizeState
  split_ifs <;> rfl

/-- C8 (code bug): the reported max_drawdown_percent field copies the loop's running
drawdown fraction unscaled; on a run whose running maximum drawdown is 0.99099 the
field holds 0.99099, not the fraction times 100. -/
theorem C8_drawdown_reported_as_fraction :
    (run_backtest cfgA runA).max_drawdown_percent = (runLoop cfgA runA).max_drawdown
    ∧ (runLoop cfgA runA).max_drawdown = 99099 / 100000
    ∧ (run_backtest cfgA runA).max_drawdown_percent
        ≠ 100 * (runLoop cfgA runA).max_drawdown := by
  have h1 : (run_backtest cfgA runA).max_drawdown_percent
      = (runLoop cfgA runA).max_drawdown := finalizeState_max_drawdown cfgA _
  have h2 : (runLoop cfgA runA).max_drawdown = 99099 / 100000 := by
    norm_num [runLoop, stepBar, markBar, decideBar, enterTrade, closeTrade, initState,
      _calculate_pnl_and_commission, flatBars, runA, cfgA, List.replicate, max_def]
  exact ⟨h1, h2, by rw [h1, h2]; norm_num⟩

/-- C2 counterexample: with positive initial capital and commission_rate one half —
inside the stated range [0, 1) — and stop_loss_percent inside (0, 1), a run with one
entry ends with strictly negative cash. -/
theorem C2_counterexample_large_commission :
    0 < cfgB.initial_capital ∧ 0 ≤ cfgB.commission ∧ cfgB.commission < 1
    ∧ 0 < cfgB.stop_loss_percent ∧ cfgB.stop_loss_percent < 1
    ∧ (run_backtest cfgB runOpen).final_capital < 0 := by
  refine ⟨by norm_num [cfgB], by norm_num [cfgB], by norm_num [cfgB], by norm_num [cfgB],
    by norm_num [cfgB], ?_⟩
  norm_num [run_backtest, runLoop, finalizeState, stepBar, markBar, decideBar, enterTrade,
    closeTrade, initState, _calculate_pnl_and_commission, flatBars, runOpen, cfgB,
    List.replicate, max_def]

/-- C2 witness: the amended statement applied to the 52-bar run under the default
commission 0.001, which is at most 1/198. -/
theorem C2_cash_nonneg_witness :
    0 ≤ (runLoop cfgA runA).capital ∧ 0 ≤ (run_backtest cfgA runA).final_capital :=
  C2_cash_nonneg_small_commission cfgA runA runA [] (by norm_num [cfgA])
    (by norm_num [cfgA]) (by norm_num [cfgA])
    (by intro b hb
        simp only [runA, flatBars, List.mem_append, List.mem_replicate, List.mem_cons,
          List.not_mem_nil, or_false] at hb
        rcases hb with ⟨-, rfl⟩ | rfl | rfl <;> norm_num)
    (by simp)

/-- C7 counterexample: on the empty input sequence the run returns the default
zero-trade results record — final capital equal to initial capital, zero trades,
all counters zero — rather than raising any precondition error. -/
theorem C7_counterexample_empty_input :
    run_backtest cfgA [] =
      { initial_capital := 10000, final_capital := 10000, total_return_percent := 0,
        total_trades := 0, winning_trades := 0, losing_trades := 0, win_rate_percent := 0,
        max_drawdown_percent := 0, trades := [] } := by
  norm_num [run_backtest, runLoop, finalizeState, initState, cfgA]

/-- Bar used to exercise the stop-loss tie-break: the sell decision is also true and
the close sits exactly on the inclusive stop boundary 97 for an entry at 100 with
stop_loss_percent 0.03. -/
def stepExample : StepIn := { buySig := false, sellSig := true, close := 97 }

/-- C5 witness: the precedence theorem applied at the boundary close 97 with the
sell decision simultaneously true. -/
theorem C5_witness :
    (stepBar cfgA stateLongA stepExample).in_position = false
    ∧ ((stepBar cfgA stateLongA stepExample).trades.getLast?).map Trade.ttype
        = some TradeType.STOP_LOSS := by
  have h := C5_stop_loss_precedence cfgA stateLongA stepExample rfl
    (by norm_num [cfgA, stateLongA])
    (by norm_num [cfgA, stateLongA, stepExample])
  exact ⟨h.1, h.2.2.1⟩

/-- C6 witness: the forced-close theorem applied to a run whose last bar opens a
position. -/
theorem C6_witness :
    ((run_backtest cfgA runOpen).trades.getLast?).map Trade.ttype
      = some TradeType.CLOSE_POSITION := by
  have hopen : (runLoop cfgA runOpen).in_position = true := by
    norm_num [runLoop, stepBar, markBar, decideBar, enterTrade, closeTrade, initState,
      _calculate_pnl_and_commission, flatBars, runOpen, cfgA, List.replicate, max_def]
  exact ((C6_forced_close_settles cfgA runOpen).2.1 hopen).2.1

/-- The forced close recorded by the runA run: zero price movement, net pnl equal to
minus the commissions, recorded as a LOSS. -/
def tradeA : Trade :=
  { entry_time := 51, exit_time := 52, entry_price := 100, exit_price := 100,
    position_size := 99, pnl := -99 / 5, commission := 99 / 5,
    ttype := TradeType.CLOSE_POSITION, result := TradeResult.LOSS }

/-- C9 witness: the classification theorem applied to the concrete zero-movement
forced close of runA, whose net pnl is negative, so it is recorded as a LOSS. -/
theorem C9_witness :
    tradeA.result = TradeResult.WIN ↔ tradeA.ttype ≠ TradeType.STOP_LOSS ∧ 0 < tradeA.pnl :=
  (C9_win_loss_classification cfgA runA).1 tradeA
    (by norm_num [run_backtest, runLoop, finalizeState, stepBar, markBar, decideBar,
      enterTrade, closeTrade, initState, _calculate_pnl_and_commission, flatBars, runA,
      cfgA, List.replicate, max_def, tradeA])

end InShadowTrader
